import Mathlib

/-!
Verification of the PoRAM engine of the chrome-extension miner.

The JavaScript source is shallowly embedded:
* JS numbers holding integral values are modelled as `ℕ`; the bitwise
  `& 0xff` (which coerces through ToInt32, i.e. reduction mod 2^32) is
  modelled as `% 4294967296 % 256`; `Math.floor(num / 256)` is `Nat`
  division.
* GB quantities (which take values such as `14.5` and `0.25` in the
  source) are modelled as `ℚ`; all source arithmetic on them is exact on
  binary fractions of this magnitude.
* `Uint8Array` values are `List ℕ` of bytes, strings are `List Char`.
* The SHA-256 digest is an abstract parameter `H : List ℕ → List ℕ`
  assumed to produce 32 bytes; nothing below depends on its internals.
* `async`/`await` code is modelled by explicit state / environment
  passing; rejection of a promise is `Option.none`.
-/

namespace PORAM

/-- Reference big-endian encoding of a number as `k` bytes: byte `i`
(from the most significant end) is `n / 256 ^ (k - 1 - i) % 256`.
For `k = 8` this is the `bigEndian64` of the specification. -/
def bigEndian (n k : ℕ) : List ℕ :=
  (List.range k).map (fun i => n / 256 ^ (k - 1 - i) % 256)

/-- Embedding of `PoRAMManager.numberToBytes` (src/miner.js, identical in
src/offscreen.js): the loop runs `i` from `byteCount - 1` down to `0`,
storing `num & 0xff` at index `i` and then dividing `num` by 256.  So the
LAST byte is produced first; recursively, the result for `byteCount = k+1`
is the result for `num / 256` and `k` bytes followed by the low byte.
JS `num & 0xff` coerces `num` through ToInt32 (reduction mod 2^32) before
masking, hence the `% 4294967296`. -/
def numberToBytes : ℕ → ℕ → List ℕ
  | _, 0 => []
  | num, k + 1 => numberToBytes (num / 256) k ++ [num % 4294967296 % 256]

theorem numberToBytes_eq_bigEndian (n k : ℕ) : numberToBytes n k = bigEndian n k := by
  induction k generalizing n with
  | zero => rfl
  | succ k ih =>
      rw [numberToBytes, ih]
      unfold bigEndian
      rw [List.range_succ, List.map_append]
      congr 1
      · apply List.map_congr_left
        intro i hi
        rw [List.mem_range] at hi
        have h1 : k + 1 - 1 - i = (k - 1 - i) + 1 := by omega
        rw [h1, pow_succ, Nat.div_div_eq_div_mul, Nat.mul_comm]
      · simp [bigEndian]
        omega

/-- Claim C8: `numberToBytes n 8` is exactly the 8-byte big-endian
encoding of `n` for every unsigned 64-bit `n` (in fact the proof needs no
bound at all: the ToInt32 coercion inside `& 0xff` never changes the low
byte, and the repeated exact division by 256 reproduces every byte of the
big-endian encoding, including for values at and above 2^53). -/
theorem C8_numberToBytes_bigEndian64 (n : ℕ) (_hn : n < 2 ^ 64) :
    numberToBytes n 8 = bigEndian n 8 := by
  exact numberToBytes_eq_bigEndian n 8

/-- Witness for C8 at a concrete input above 2^53. -/
theorem C8_numberToBytes_bigEndian64_witness :
    (2 ^ 53 + 12345 : ℕ) < 2 ^ 64 ∧
      numberToBytes (2 ^ 53 + 12345) 8 = bigEndian (2 ^ 53 + 12345) 8 :=
  ⟨by norm_num, C8_numberToBytes_bigEndian64 (2 ^ 53 + 12345) (by norm_num)⟩

/-! Base64.  `PoRAMManager.arrayToBase64` builds a binary string from the
byte array with `String.fromCharCode` and feeds it to `btoa`, which is the
standard base64 encoding of the byte sequence.  We model the output string
as a `List Char`.  `b64decode` is the standard inverse (it is not code of
this repository; it realises the "after base64 decoding" of the claim). -/

/-- The base64 alphabet used by `btoa`. -/
def b64alphabet : List Char :=
  "ABCDEFGHIJKLMNOPQRSTUVWXYZabcdefghijklmnopqrstuvwxyz0123456789+/".toList

/-- Character for a 6-bit value. -/
def b64tbl (i : ℕ) : Char := b64alphabet.getD i 'A'

/-- 6-bit value of an alphabet character (64 when not in the alphabet). -/
def b64decVal (c : Char) : ℕ := b64alphabet.indexOf c

/-- Standard base64 of a byte list, as produced by `btoa` on a binary
string: groups of three bytes become four alphabet characters; a final
group of one or two bytes is padded with `=`. -/
def b64encode : List ℕ → List Char
  | [] => []
  | [a] => [b64tbl (a / 4), b64tbl (a % 4 * 16), '=', '=']
  | [a, b] => [b64tbl (a / 4), b64tbl (a % 4 * 16 + b / 16), b64tbl (b % 16 * 4), '=']
  | a :: b :: c :: rest =>
      b64tbl (a / 4) :: b64tbl (a % 4 * 16 + b / 16) :: b64tbl (b % 16 * 4 + c / 64) ::
        b64tbl (c % 64) :: b64encode rest

/-- Embedding of `PoRAMManager.arrayToBase64` (src/miner.js, identical in
src/offscreen.js): `btoa` applied to the code-unit string of the bytes. -/
def arrayToBase64 (array : List ℕ) : List Char := b64encode array

/-- Regroup 6-bit values into bytes (inverse of the grouping above). -/
def unsextets : List ℕ → List ℕ
  | s1 :: s2 :: s3 :: s4 :: rest =>
      (s1 * 4 + s2 / 16) :: (s2 % 16 * 16 + s3 / 4) :: (s3 % 4 * 64 + s4) :: unsextets rest
  | [s1, s2] => [s1 * 4 + s2 / 16]
  | [s1, s2, s3] => [s1 * 4 + s2 / 16, s2 % 16 * 16 + s3 / 4]
  | _ => []

/-- Standard base64 decoding: drop padding, map characters to 6-bit
values, regroup into bytes. -/
def b64decode (cs : List Char) : List ℕ :=
  unsextets ((cs.filter (fun c => c ≠ '=')).map b64decVal)

theorem b64decVal_b64tbl : ∀ s < 64, b64decVal (b64tbl s) = s := by decide

theorem b64tbl_ne_pad : ∀ s < 64, b64tbl s ≠ '=' := by decide

theorem filter_pad_cons_tbl (s : ℕ) (hs : s < 64) (cs : List Char) :
    List.filter (fun c => c ≠ '=') (b64tbl s :: cs) =
      b64tbl s :: List.filter (fun c => c ≠ '=') cs := by
  simp [List.filter_cons, b64tbl_ne_pad s hs]

theorem filter_pad_cons_pad (cs : List Char) :
    List.filter (fun c => c ≠ '=') ('=' :: cs) = List.filter (fun c => c ≠ '=') cs := by
  simp [List.filter_cons]

theorem b64_roundtrip : ∀ l : List ℕ, (∀ b ∈ l, b < 256) → b64decode (b64encode l) = l
  | [], _ => rfl
  | [a], h => by
      have ha : a < 256 := h a (by simp)
      rw [b64encode, b64decode, filter_pad_cons_tbl _ (by omega),
        filter_pad_cons_tbl _ (by omega), filter_pad_cons_pad, filter_pad_cons_pad]
      simp [unsextets, b64decVal_b64tbl _ (show a / 4 < 64 by omega),
        b64decVal_b64tbl _ (show a % 4 * 16 < 64 by omega)]
      omega
  | [a, b], h => by
      have ha : a < 256 := h a (by simp)
      have hb : b < 256 := h b (by simp)
      rw [b64encode, b64decode, filter_pad_cons_tbl _ (by omega),
        filter_pad_cons_tbl _ (by omega), filter_pad_cons_tbl _ (by omega), filter_pad_cons_pad]
      simp [unsextets, b64decVal_b64tbl _ (show a / 4 < 64 by omega),
        b64decVal_b64tbl _ (show a % 4 * 16 + b / 16 < 64 by omega),
        b64decVal_b64tbl _ (show b % 16 * 4 < 64 by omega)]
      omega
  | a :: b :: c :: d :: rest, h => by
      have ha : a < 256 := h a (by simp)
      have hb : b < 256 := h b (by simp)
      have hc : c < 256 := h c (by simp)
      have ih := b64_roundtrip (d :: rest) (fun x hx => h x (by simp [hx]))
      rw [b64decode] at ih
      rw [b64encode, b64decode, filter_pad_cons_tbl _ (by omega),
        filter_pad_cons_tbl _ (by omega), filter_pad_cons_tbl _ (by omega),
        filter_pad_cons_tbl _ (by omega)]
      simp only [List.map_cons, b64decVal_b64tbl _ (show a / 4 < 64 by omega),
        b64decVal_b64tbl _ (show a % 4 * 16 + b / 16 < 64 by omega),
        b64decVal_b64tbl _ (show b % 16 * 4 + c / 64 < 64 by omega),
        b64decVal_b64tbl _ (show c % 64 < 64 by omega), unsextets]
      rw [ih]
      have e1 : a / 4 * 4 + (a % 4 * 16 + b / 16) / 16 = a := by omega
      have e2 : (a % 4 * 16 + b / 16) % 16 * 16 + (b % 16 * 4 + c / 64) / 4 = b := by omega
      have e3 : (b % 16 * 4 + c / 64) % 4 * 64 + c % 64 = c := by omega
      rw [e1, e2, e3]
  | [a, b, c], h => by
      have ha : a < 256 := h a (by simp)
      have hb : b < 256 := h b (by simp)
      have hc : c < 256 := h c (by simp)
      rw [show [a, b, c] = a :: b :: c :: ([] : List ℕ) from rfl, b64encode, b64decode,
        filter_pad_cons_tbl _ (by omega), filter_pad_cons_tbl _ (by omega),
        filter_pad_cons_tbl _ (by omega), filter_pad_cons_tbl _ (by omega)]
      simp only [List.filter_nil, List.map_cons, List.map_nil,
        b64decVal_b64tbl _ (show a / 4 < 64 by omega),
        b64decVal_b64tbl _ (show a % 4 * 16 + b / 16 < 64 by omega),
        b64decVal_b64tbl _ (show b % 16 * 4 + c / 64 < 64 by omega),
        b64decVal_b64tbl _ (show c % 64 < 64 by omega), unsextets]
      have e1 : a / 4 * 4 + (a % 4 * 16 + b / 16) / 16 = a := by omega
      have e2 : (a % 4 * 16 + b / 16) % 16 * 16 + (b % 16 * 4 + c / 64) / 4 = b := by omega
      have e3 : (b % 16 * 4 + c / 64) % 4 * 64 + c % 64 = c := by omega
      rw [e1, e2, e3]

/-- Value of one hex digit, on the character code.  Models
`parseInt(hex.substr(i, 2), 16)` digit-wise for valid hex digits; an
invalid digit contributes 0 (a `NaN` parse is stored as 0 by the
`Uint8Array`). -/
def hexDigitVal (c : Char) : ℕ :=
  if 48 ≤ c.toNat ∧ c.toNat ≤ 57 then c.toNat - 48
  else if 97 ≤ c.toNat ∧ c.toNat ≤ 102 then c.toNat - 87
  else if 65 ≤ c.toNat ∧ c.toNat ≤ 70 then c.toNat - 55
  else 0

/-- Embedding of `PoRAMManager.hexToBytes` (src/miner.js, identical in
src/offscreen.js): each pair of hex characters becomes one byte. -/
def hexToBytes : List Char → List ℕ
  | c1 :: c2 :: rest => (hexDigitVal c1 * 16 + hexDigitVal c2) :: hexToBytes rest
  | _ => []

theorem hexDigitVal_lt (c : Char) : hexDigitVal c < 16 := by
  unfold hexDigitVal
  split_ifs <;> omega

theorem hexToBytes_lt : ∀ cs : List Char, ∀ b ∈ hexToBytes cs, b < 256
  | c1 :: c2 :: rest, b, hb => by
      rw [hexToBytes] at hb
      rcases List.mem_cons.mp hb with h | h
      · have h1 := hexDigitVal_lt c1
        have h2 := hexDigitVal_lt c2
        omega
      · exact hexToBytes_lt rest b h
  | [], _, hb => by simp [hexToBytes] at hb
  | [_], _, hb => by simp [hexToBytes] at hb

/-- Embedding of the generation loop of `PoRAMManager.generateChunk`
(src/miner.js lines 1277-1306, identical in src/offscreen.js): while
bytes remain, hash `epochSeed ++ numberToBytes currentOffset 8`, copy
`min 32 remaining` bytes of the digest, and advance the offset by the
number of bytes copied.  `H` is the abstract 32-byte digest (`sha256` in
the source); recursion is on the remaining byte count
(`chunkSize - writePos` in the source). -/
def genLoop (H : List ℕ → List ℕ) (epochSeed : List ℕ) : ℕ → ℕ → List ℕ
  | 0, _ => []
  | remaining + 1, currentOffset =>
      (H (epochSeed ++ numberToBytes currentOffset 8)).take (min 32 (remaining + 1)) ++
        genLoop H epochSeed (remaining + 1 - min 32 (remaining + 1))
          (currentOffset + min 32 (remaining + 1))
  termination_by r _ => r
  decreasing_by omega

/-- Embedding of `PoRAMManager.generateChunk`: hex-decode the seed, run
the generation loop, base64-encode the result. -/
def generateChunk (H : List ℕ → List ℕ) (epochSeedHex : List Char)
    (offset chunkSize : ℕ) : List Char :=
  arrayToBase64 (genLoop H (hexToBytes epochSeedHex) chunkSize offset)

/-- Modelled from the spec (reference algorithm for the C1 refinement):
maintain a cursor starting at `offset`; repeatedly compute the 32-byte
digest of `epochSeed || bigEndian64(cursor)`, append up to 32 bytes of
it, advance the cursor by the number of bytes consumed, and stop once
`length` bytes have been produced. -/
def referenceChunk (H : List ℕ → List ℕ) (epochSeed : List ℕ) : ℕ → ℕ → List ℕ
  | 0, _ => []
  | remaining + 1, cursor =>
      (H (epochSeed ++ bigEndian cursor 8)).take (min 32 (remaining + 1)) ++
        referenceChunk H epochSeed (remaining + 1 - min 32 (remaining + 1))
          (cursor + min 32 (remaining + 1))
  termination_by r _ => r
  decreasing_by omega

theorem genLoop_step (H : List ℕ → List ℕ) (seed : List ℕ) (r cur : ℕ) (hr : 0 < r) :
    genLoop H seed r cur =
      (H (seed ++ numberToBytes cur 8)).take (min 32 r) ++
        genLoop H seed (r - min 32 r) (cur + min 32 r) := by
  cases r with
  | zero => omega
  | succ n => rw [genLoop]

theorem referenceChunk_step (H : List ℕ → List ℕ) (seed : List ℕ) (r cur : ℕ) (hr : 0 < r) :
    referenceChunk H seed r cur =
      (H (seed ++ bigEndian cur 8)).take (min 32 r) ++
        referenceChunk H seed (r - min 32 r) (cur + min 32 r) := by
  cases r with
  | zero => omega
  | succ n => rw [referenceChunk]

theorem genLoop_eq_referenceChunk (H : List ℕ → List ℕ) (seed : List ℕ) :
    ∀ r cur, genLoop H seed r cur = referenceChunk H seed r cur := by
  intro r
  induction r using Nat.strong_induction_on with
  | _ r ih =>
      intro cur
      cases r with
      | zero => rw [genLoop, referenceChunk]
      | succ n =>
          rw [genLoop, referenceChunk, numberToBytes_eq_bigEndian,
            ih (n + 1 - min 32 (n + 1)) (by omega)]

theorem genLoop_length (H : List ℕ → List ℕ) (seed : List ℕ)
    (hlen : ∀ x, (H x).length = 32) :
    ∀ r cur, (genLoop H seed r cur).length = r := by
  intro r
  induction r using Nat.strong_induction_on with
  | _ r ih =>
      intro cur
      cases r with
      | zero => rw [genLoop]; rfl
      | succ n =>
          rw [genLoop]
          simp only [List.length_append, List.length_take, hlen,
            ih (n + 1 - min 32 (n + 1)) (by omega)]
          omega

theorem genLoop_bytes_lt (H : List ℕ → List ℕ) (seed : List ℕ)
    (hbytes : ∀ x, ∀ b ∈ H x, b < 256) :
    ∀ r cur, ∀ b ∈ genLoop H seed r cur, b < 256 := by
  intro r
  induction r using Nat.strong_induction_on with
  | _ r ih =>
      intro cur b hb
      cases r with
      | zero => rw [genLoop] at hb; simp at hb
      | succ n =>
          rw [genLoop] at hb
          rcases List.mem_append.mp hb with h | h
          · exact hbytes _ b (List.mem_of_mem_take h)
          · exact ih (n + 1 - min 32 (n + 1)) (by omega) _ b h

/-- Claim C1: decoding the base64 output of `generateChunk` yields
exactly `chunkSize` bytes equal to the reference algorithm of the spec
(cursor at `offset`, digest of `epochSeed || bigEndian64(cursor)`, up to
32 bytes consumed per digest); for `chunkSize = 40` the first 32 bytes
are the digest at `offset` and the last 8 bytes are the first 8 bytes of
the digest at `offset + 32`. -/
theorem C1_generateChunk_matches_reference (H : List ℕ → List ℕ)
    (hlen : ∀ x, (H x).length = 32) (hbytes : ∀ x, ∀ b ∈ H x, b < 256)
    (epochSeedHex : List Char) (offset chunkSize : ℕ) :
    b64decode (generateChunk H epochSeedHex offset chunkSize) =
        referenceChunk H (hexToBytes epochSeedHex) chunkSize offset ∧
      (b64decode (generateChunk H epochSeedHex offset chunkSize)).length = chunkSize ∧
      (chunkSize = 40 →
        (b64decode (generateChunk H epochSeedHex offset chunkSize)).take 32 =
            H (hexToBytes epochSeedHex ++ bigEndian offset 8) ∧
          (b64decode (generateChunk H epochSeedHex offset chunkSize)).drop 32 =
            (H (hexToBytes epochSeedHex ++ bigEndian (offset + 32) 8)).take 8) := by
  have hdec : b64decode (generateChunk H epochSeedHex offset chunkSize) =
      genLoop H (hexToBytes epochSeedHex) chunkSize offset := by
    unfold generateChunk arrayToBase64
    exact b64_roundtrip _ (genLoop_bytes_lt H _ hbytes chunkSize offset)
  refine ⟨?_, ?_, ?_⟩
  · rw [hdec, genLoop_eq_referenceChunk]
  · rw [hdec, genLoop_length H _ hlen]
  · intro h40
    subst h40
    have h32 : ∀ y, (H y).take 32 = H y := fun y => List.take_of_length_le (by rw [hlen])
    rw [hdec, genLoop_step H _ 40 offset (by norm_num)]
    have hmin : min 32 40 = 32 := by omega
    rw [hmin, h32, genLoop_step H _ (40 - 32) (offset + 32) (by norm_num)]
    have hmin8 : min 32 (40 - 32) = 8 := by omega
    rw [hmin8, show (40 : ℕ) - 32 - 8 = 0 from by norm_num, genLoop]
    constructor
    · rw [List.take_left' (hlen _), numberToBytes_eq_bigEndian]
    · rw [List.drop_left' (hlen _), numberToBytes_eq_bigEndian, List.append_nil]

/-- Concrete 32-byte digest function used by witnesses (stands in for
SHA-256, about whose internals nothing is proved). -/
def testDigest (l : List ℕ) : List ℕ :=
  (List.range 32).map (fun i => (l.sum + i) % 256)

theorem testDigest_length (x : List ℕ) : (testDigest x).length = 32 := by
  simp [testDigest]

theorem testDigest_bytes_lt (x : List ℕ) : ∀ b ∈ testDigest x, b < 256 := by
  intro b hb
  simp only [testDigest, List.mem_map, List.mem_range] at hb
  obtain ⟨i, _, hi⟩ := hb
  omega

/-- Witness for C1 at a concrete seed, offset and the length 40 of the
claim. -/
theorem C1_generateChunk_matches_reference_witness :
    (∀ x, (testDigest x).length = 32) ∧
      (b64decode (generateChunk testDigest ("0a1b".toList) 5 40) =
          referenceChunk testDigest (hexToBytes ("0a1b".toList)) 40 5 ∧
        (b64decode (generateChunk testDigest ("0a1b".toList) 5 40)).length = 40 ∧
        (40 = 40 →
          (b64decode (generateChunk testDigest ("0a1b".toList) 5 40)).take 32 =
              testDigest (hexToBytes ("0a1b".toList) ++ bigEndian 5 8) ∧
            (b64decode (generateChunk testDigest ("0a1b".toList) 5 40)).drop 32 =
              (testDigest (hexToBytes ("0a1b".toList) ++ bigEndian (5 + 32) 8)).take 8)) :=
  ⟨testDigest_length,
    C1_generateChunk_matches_reference testDigest testDigest_length testDigest_bytes_lt
      ("0a1b".toList) 5 40⟩

/-! Manager state.  `PoRAMManager` (src/miner.js) carries the allocated
buffers and bookkeeping fields; method calls are embedded with the state
passed explicitly. -/

/-- Mutable fields of a `PoRAMManager` relevant to chunk generation and
challenge handling: the allocated memory buffers (`this.memory`), the
offscreen context / tab identifiers, the `initialized` flag and
`lastAccessTime`. -/
structure PoRAMState where
  memory : List (List ℕ)
  offscreenContexts : List (List Char)
  initialized : Bool
  lastAccessTime : ℕ

/-- Embedding of the method call `this.generateChunk(...)` with explicit
state passing.  The body of `PoRAMManager.generateChunk` reads only its
arguments and the stateless helpers `hexToBytes`, `numberToBytes`,
`sha256` and `arrayToBase64`; it reads and writes no field of `this`, so
the state passes through unchanged. -/
def generateChunkM (H : List ℕ → List ℕ) (st : PoRAMState) (epochSeedHex : List Char)
    (offset chunkSize : ℕ) : List Char × PoRAMState :=
  (generateChunk H epochSeedHex offset chunkSize, st)

/-- Claim C9: the chunk generator is pure.  Two calls with identical
`(seed, offset, length)` arguments return identical bytes whatever the
engine state is, and the state is returned unmodified. -/
theorem C9_generateChunk_pure (H : List ℕ → List ℕ) (st₁ st₂ : PoRAMState)
    (epochSeedHex : List Char) (offset chunkSize : ℕ) :
    (generateChunkM H st₁ epochSeedHex offset chunkSize).1 =
        (generateChunkM H st₂ epochSeedHex offset chunkSize).1 ∧
      (generateChunkM H st₁ epochSeedHex offset chunkSize).2 = st₁ :=
  ⟨rfl, rfl⟩

/-! Challenge handling (`PoRAMManager.handleChallenge`, src/miner.js
lines 1151-1266). -/

/-- A PoRAM challenge from the coordinator. -/
structure Challenge where
  challenge_id : List Char
  epoch_seed : List Char
  offsets : List ℕ
  chunk_size : ℕ
  deadline_ms : ℕ
deriving DecidableEq

/-- The response assembled by `handleChallenge`.  The source returns an
object with exactly these three fields (there is no `success` field). -/
structure ChallengeResponse where
  challenge_id : List Char
  chunks : List (List Char)
  response_time_ms : ℕ
deriving DecidableEq

/-- Sequential chunk collection inside the `try` block: one per-offset
production after another, each appended to `chunks`; a failure rejects
the whole block (`none`).  In the concurrent branches the same holds
because a single rejected promise rejects the enclosing
`Promise.all`. -/
def collectChunks (g : ℕ → Option (List Char)) : List ℕ → Option (List (List Char))
  | [] => some []
  | o :: rest =>
      match g o with
      | none => none
      | some c => (collectChunks g rest).map (fun cs => c :: cs)

/-- Embedding of `PoRAMManager.handleChallenge`.  `g` models per-offset
chunk production — `await this.generateChunk(...)` in the main-context
branch, or the message round-trip to an offscreen context / memory tab in
the other branches (`none` = rejection).  `elapsedMs` models
`Math.floor(performance.now() - startTime)` at response assembly.  On
success the source returns `{challenge_id, chunks, response_time_ms}`;
the `catch` block returns `{challenge_id, chunks: [], response_time_ms: 0}`.
`deadline_ms` is never read. -/
def handleChallenge (g : ℕ → Option (List Char)) (ch : Challenge) (elapsedMs : ℕ) :
    ChallengeResponse :=
  match collectChunks g ch.offsets with
  | some chunks => ⟨ch.challenge_id, chunks, elapsedMs⟩
  | none => ⟨ch.challenge_id, [], 0⟩

theorem collectChunks_eq_none (g : ℕ → Option (List Char)) :
    ∀ offsets : List ℕ, (∃ o ∈ offsets, g o = none) → collectChunks g offsets = none := by
  intro offsets
  induction offsets with
  | nil => rintro ⟨o, ho, _⟩; simp at ho
  | cons o rest ih =>
      rintro ⟨o', ho', hg⟩
      rcases List.mem_cons.mp ho' with h | h
      · subst h
        simp [collectChunks, hg]
      · rw [collectChunks]
        cases hgo : g o with
        | none => rfl
        | some c => rw [ih ⟨o', h, hg⟩]; rfl

theorem collectChunks_eq_map (g : ℕ → Option (List Char)) (f : ℕ → List Char)
    (hf : ∀ o, g o = some (f o)) :
    ∀ offsets : List ℕ, collectChunks g offsets = some (offsets.map f) := by
  intro offsets
  induction offsets with
  | nil => rfl
  | cons o rest ih => rw [collectChunks, hf, ih]; rfl

theorem collectChunks_of_all_some (g : ℕ → Option (List Char)) :
    ∀ l : List ℕ, (∀ o ∈ l, (g o).isSome) → ∃ cs, collectChunks g l = some cs
  | [], _ => ⟨[], rfl⟩
  | o :: rest, h => by
      obtain ⟨cs, hcs⟩ :=
        collectChunks_of_all_some g rest (fun o' ho' => h o' (by simp [ho']))
      cases hgo : g o with
      | none =>
          have hmem := h o (by simp)
          rw [hgo] at hmem
          simp at hmem
      | some c => exact ⟨c :: cs, by rw [collectChunks, hgo, hcs]; rfl⟩

/-- Concrete per-offset generator for counterexamples: offset 0 succeeds,
every other offset fails. -/
def gFail (o : ℕ) : Option (List Char) := if o = 0 then some ['A'] else none

/-- Concrete challenge for counterexamples: two offsets, of which the
second one's generation fails. -/
def chFail : Challenge :=
  ⟨"c1".toList, "00ff".toList, [0, 1], 64, 1000⟩

/-- Counterexample to C3 as stated: with two offsets of which only the
second fails (after the first chunk completed successfully), the response
does not keep the completed chunk in its slot with an empty placeholder in
the failed slot — the whole `chunks` array comes back empty. -/
theorem C3_counterexample :
    gFail 0 = some ['A'] ∧ gFail 1 = none ∧
      (handleChallenge gFail chFail 7).chunks = [] := by
  refine ⟨rfl, rfl, ?_⟩
  rfl

/-- Claim C3 amended: on any per-offset generation failure,
`handleChallenge` returns a response whose `chunks` array is empty and
whose `response_time_ms` is 0 — every chunk that completed successfully
is discarded along with the failed slots (and there is no `success`
field on the response at all). -/
theorem C3_failure_empties_response (g : ℕ → Option (List Char)) (ch : Challenge)
    (elapsedMs : ℕ) (hfail : ∃ o ∈ ch.offsets, g o = none) :
    handleChallenge g ch elapsedMs = ⟨ch.challenge_id, [], 0⟩ := by
  rw [handleChallenge, collectChunks_eq_none g ch.offsets hfail]

/-- Witness for the amended C3. -/
theorem C3_failure_empties_response_witness :
    (∃ o ∈ chFail.offsets, gFail o = none) ∧
      handleChallenge gFail chFail 7 = ⟨chFail.challenge_id, [], 0⟩ :=
  ⟨⟨1, by decide, rfl⟩, C3_failure_empties_response gFail chFail 7 ⟨1, by decide, rfl⟩⟩

/-- Counterexample to C4 as stated: in the error case the response's
`response_time_ms` is the literal 0, not the elapsed wall-clock time
(here the measured elapsed time is 7 ms). -/
theorem C4_counterexample :
    (handleChallenge gFail chFail 7).response_time_ms = 0 ∧ (7 : ℕ) ≠ 0 :=
  ⟨rfl, by decide⟩

/-- Claim C4 amended: `handleChallenge` always returns a
`ChallengeResponse` carrying the challenge's id, and it never reads
`deadline_ms` (so a late response is still returned unchanged); but
`response_time_ms` equals the measured elapsed wall-clock time only when
every per-offset generation succeeds — in the error case it is 0. -/
theorem C4_always_responds (g : ℕ → Option (List Char)) (ch : Challenge) (elapsedMs : ℕ) :
    (handleChallenge g ch elapsedMs).challenge_id = ch.challenge_id ∧
      (∀ d : ℕ,
        handleChallenge g
            ⟨ch.challenge_id, ch.epoch_seed, ch.offsets, ch.chunk_size, d⟩ elapsedMs =
          handleChallenge g ch elapsedMs) ∧
      ((∀ o ∈ ch.offsets, (g o).isSome) →
        (handleChallenge g ch elapsedMs).response_time_ms = elapsedMs) ∧
      ((∃ o ∈ ch.offsets, g o = none) →
        (handleChallenge g ch elapsedMs).response_time_ms = 0) := by
  refine ⟨?_, ?_, ?_, ?_⟩
  · rw [handleChallenge]
    cases collectChunks g ch.offsets <;> rfl
  · intro d
    rfl
  · intro hall
    obtain ⟨cs, hcs⟩ := collectChunks_of_all_some g ch.offsets hall
    rw [handleChallenge, hcs]
  · intro hfail
    rw [handleChallenge, collectChunks_eq_none g ch.offsets hfail]

/-- Witness for the amended C4. -/
theorem C4_always_responds_witness :
    (∃ o ∈ chFail.offsets, gFail o = none) ∧
      (handleChallenge gFail chFail 7).challenge_id = chFail.challenge_id ∧
      (handleChallenge gFail chFail 7).response_time_ms = 0 :=
  ⟨⟨1, by decide, rfl⟩, (C4_always_responds gFail chFail 7).1,
    (C4_always_responds gFail chFail 7).2.2.2 ⟨1, by decide, rfl⟩⟩

/-- Embedding of the main-context path of `handleChallenge` with the
manager state threaded explicitly: every chunk is produced by
`this.generateChunk(epoch_seed, offset, chunk_size)`, a pure computation
over the challenge fields; no statement of the method reads or writes
`this.memory` (the allocated buffers). -/
def handleChallengeM (H : List ℕ → List ℕ) (st : PoRAMState) (ch : Challenge)
    (elapsedMs : ℕ) : ChallengeResponse × PoRAMState :=
  (handleChallenge (fun o => some (generateChunk H ch.epoch_seed o ch.chunk_size)) ch
    elapsedMs, st)

/-- Claim C10: the chunks of a challenge response are computed solely
from the challenge's `epoch_seed`, `offsets` and `chunk_size` and never
read the allocated memory: for any two manager states (with arbitrary,
even empty, memory) the same challenge yields identical chunk bytes,
namely the deterministic per-offset chunks. -/
theorem C10_chunks_independent_of_memory (H : List ℕ → List ℕ) (st₁ st₂ : PoRAMState)
    (ch : Challenge) (elapsedMs : ℕ) :
    (handleChallengeM H st₁ ch elapsedMs).1.chunks =
        (handleChallengeM H st₂ ch elapsedMs).1.chunks ∧
      (handleChallengeM H st₁ ch elapsedMs).1.chunks =
        ch.offsets.map (fun o => generateChunk H ch.epoch_seed o ch.chunk_size) := by
  constructor
  · rfl
  · show (handleChallenge _ ch elapsedMs).chunks = _
    rw [handleChallenge,
      collectChunks_eq_map _ (fun o => generateChunk H ch.epoch_seed o ch.chunk_size)
        (fun o => rfl)]

/-! Concurrent chunk assembly.  In the offscreen / tab branches of
`handleChallenge`, `offsets.map(async (offset, index) => ...)` creates
one promise per index and `Promise.all` resolves with their values placed
by index: the settling of the promise for index `i` fills slot `i`,
whatever order the settlings happen in. -/

/-- Settle promises in completion order `order`: each settling writes the
value for its index into its own slot. -/
def settleAll {α : Type} (v : ℕ → α) : List ℕ → List (Option α) → List (Option α)
  | [], slots => slots
  | i :: rest, slots => settleAll v rest (slots.set i (some (v i)))

/-- The array `Promise.all` resolves with, given the completion order of
the `n` per-index promises. -/
def promiseAll {α : Type} (v : ℕ → α) (n : ℕ) (order : List ℕ) : List (Option α) :=
  settleAll v order (List.replicate n none)

/-- The chunk array assembled by the concurrent branches of
`handleChallenge`: promise `index` resolves to the chunk for
`offsets[index]` (produced remotely by the same generation algorithm),
and `Promise.all` places it in slot `index`. -/
def challengeChunksConcurrent (H : List ℕ → List ℕ) (ch : Challenge) (order : List ℕ) :
    List (Option (List Char)) :=
  promiseAll (fun i => generateChunk H ch.epoch_seed (ch.offsets.getD i 0) ch.chunk_size)
    ch.offsets.length order

theorem settleAll_length {α : Type} (v : ℕ → α) :
    ∀ order slots, (settleAll v order slots).length = slots.length
  | [], _ => rfl
  | i :: rest, slots => by
      rw [settleAll, settleAll_length v rest, List.length_set]

theorem settleAll_get_of_not_mem {α : Type} (v : ℕ → α) :
    ∀ order slots (i : ℕ), i ∉ order → (settleAll v order slots)[i]? = slots[i]?
  | [], _, _, _ => rfl
  | j :: rest, slots, i, hi => by
      rw [settleAll, settleAll_get_of_not_mem v rest _ i (fun h => hi (by simp [h]))]
      exact List.getElem?_set_ne (fun h => hi (by simp [h]))

theorem settleAll_get_of_mem {α : Type} (v : ℕ → α) :
    ∀ order slots (i : ℕ), i ∈ order → i < slots.length →
      (settleAll v order slots)[i]? = some (some (v i))
  | [], _, _, hi, _ => by simp at hi
  | j :: rest, slots, i, hi, hlen => by
      by_cases hmem : i ∈ rest
      · rw [settleAll]
        exact settleAll_get_of_mem v rest _ i hmem (by rw [List.length_set]; exact hlen)
      · have hij : i = j := by
          rcases List.mem_cons.mp hi with h | h
          · exact h
          · exact absurd h hmem
        subst hij
        rw [settleAll, settleAll_get_of_not_mem v rest _ i hmem,
          List.getElem?_set_self' ]
        simp [hlen]

/-- Claim C2: the chunks array is aligned one-to-one with the challenge's
offsets in the original offset order — for every index `i`, slot `i`
holds the chunk generated for `offsets[i]` — for EVERY completion order
of the concurrent per-offset generation (any permutation of the
indices). -/
theorem C2_chunks_in_offset_order (H : List ℕ → List ℕ) (ch : Challenge)
    (order : List ℕ) (hperm : order.Perm (List.range ch.offsets.length)) :
    ∀ i, i < ch.offsets.length →
      (challengeChunksConcurrent H ch order)[i]? =
        some (some (generateChunk H ch.epoch_seed (ch.offsets.getD i 0) ch.chunk_size)) := by
  intro i hi
  have hmem : i ∈ order := (hperm.mem_iff).mpr (List.mem_range.mpr hi)
  exact settleAll_get_of_mem _ order _ i hmem (by rw [List.length_replicate]; exact hi)

/-- Witness for C2: three offsets, with the generation for the second
offset completing before the first (completion order 1, 0, 2). -/
theorem C2_chunks_in_offset_order_witness :
    ([1, 0, 2].Perm (List.range 3)) ∧
      (challengeChunksConcurrent testDigest
            ⟨"c2".toList, "00ff".toList, [5, 9, 2], 4, 1000⟩ [1, 0, 2])[0]? =
        some (some (generateChunk testDigest "00ff".toList
          (([5, 9, 2] : List ℕ).getD 0 0) 4)) :=
  ⟨by decide,
    C2_chunks_in_offset_order testDigest ⟨"c2".toList, "00ff".toList, [5, 9, 2], 4, 1000⟩
      [1, 0, 2] (by decide) 0 (by decide)⟩

/-! Multi-tab capacity planning (`handleCreateMemoryTabs`,
src/background.js lines 730-910, driven by
`PoRAMManager.initializeWithMultipleTabs`, src/miner.js lines 729-780). -/

/-- Embedding of the tab-creation loop of `handleCreateMemoryTabs`.
`env tabIndex requestGB` is the initialization outcome the memory tab
reports: `some a` means `memory_tab_initialized` with `allocatedGB = a`,
`none` means the 5-minute timeout or a `memory_tab_error`, both of which
make the awaited promise reject, so the `while` loop throws and the outer
catch returns `{success: false}` (modelled `none`) — nothing gathered so
far is returned.  The loop condition is
`remainingGB > 0 && tabIndex < numTabsNeeded`; each round requests
`min(gbPerTab, remainingGB)`, appends the reported allocation and
subtracts it from `remainingGB`.  Recursion is on
`numTabsNeeded - tabIndex` (the `steps` argument). -/
def tabsLoop (env : ℕ → ℚ → Option ℚ) (gbPerTab : ℚ) :
    ℕ → ℕ → ℚ → Option (List ℚ)
  | 0, _, _ => some []
  | steps + 1, tabIndex, remainingGB =>
      if 0 < remainingGB then
        match env tabIndex (min gbPerTab remainingGB) with
        | none => none
        | some a =>
            (tabsLoop env gbPerTab steps (tabIndex + 1) (remainingGB - a)).map
              (fun rest => a :: rest)
      else some []

/-- Embedding of `handleCreateMemoryTabs`:
`numTabsNeeded = Math.ceil(totalGB / gbPerTab)`, then the loop above from
tab index 0 with `remainingGB = totalGB`.  On success the result is the
ordered list of per-tab reported allocations (the `allocations` map). -/
def handleCreateMemoryTabs (env : ℕ → ℚ → Option ℚ) (totalGB gbPerTab : ℚ) :
    Option (List ℚ) :=
  tabsLoop env gbPerTab (⌈totalGB / gbPerTab⌉).toNat 0 totalGB

theorem tabsLoop_full (env : ℕ → ℚ → Option ℚ) (g : ℚ) (hg : 0 < g)
    (henv : ∀ i r, env i r = some r) :
    ∀ k idx, tabsLoop env g k idx (g * k) = some (List.replicate k g) := by
  intro k
  induction k with
  | zero => intro idx; rw [tabsLoop]; rfl
  | succ n ih =>
      intro idx
      have hcast : (0 : ℚ) < ((n + 1 : ℕ) : ℚ) := by positivity
      have hpos : (0 : ℚ) < g * ((n + 1 : ℕ) : ℚ) := by positivity
      have hmin : min g (g * ((n + 1 : ℕ) : ℚ)) = g := by
        apply min_eq_left
        have h1 : (1 : ℚ) ≤ ((n + 1 : ℕ) : ℚ) := by
          exact_mod_cast Nat.one_le_iff_ne_zero.mpr (by omega)
        nlinarith
      have hrem : g * ((n + 1 : ℕ) : ℚ) - g = g * (n : ℕ) := by
        push_cast
        ring
      rw [tabsLoop, if_pos hpos, hmin, henv]
      show Option.map (fun rest => g :: rest)
          (tabsLoop env g n (idx + 1) (g * ((n + 1 : ℕ) : ℚ) - g)) =
        some (List.replicate (n + 1) g)
      rw [hrem, ih (idx + 1)]
      rfl

/-- Claim C5: planning computes `numUnits = ceil(totalGB / gbPerTab)`
execution units, and for a commitment of exactly `gbPerTab * N` with no
induced failures it produces exactly `N` shards with zero shortfall:
the allocation list has length `N` and sums to the full commitment. -/
theorem C5_planning_exact_units (g : ℚ) (N : ℕ) (env : ℕ → ℚ → Option ℚ)
    (hg : 0 < g) (henv : ∀ i r, env i r = some r) :
    (⌈g * N / g⌉).toNat = N ∧
      handleCreateMemoryTabs env (g * N) g = some (List.replicate N g) ∧
      (List.replicate N g).length = N ∧
      g * N - (List.replicate N g).sum = 0 := by
  have hceil : (⌈g * N / g⌉).toNat = N := by
    rw [mul_comm, mul_div_assoc, div_self (ne_of_gt hg), mul_one, Int.ceil_natCast,
      Int.toNat_natCast]
  refine ⟨hceil, ?_, by simp, ?_⟩
  · rw [handleCreateMemoryTabs, hceil]
    exact tabsLoop_full env g hg henv N 0
  · rw [List.sum_replicate, nsmul_eq_mul, mul_comm]
    ring

/-- Witness for C5: four full tabs of 14.5 GB for a 58 GB commitment. -/
theorem C5_planning_exact_units_witness :
    (0 : ℚ) < 29 / 2 ∧
      (⌈(29 / 2 : ℚ) * (4 : ℕ) / (29 / 2)⌉).toNat = 4 ∧
      handleCreateMemoryTabs (fun _ r => some r) ((29 / 2 : ℚ) * (4 : ℕ)) (29 / 2) =
        some (List.replicate 4 (29 / 2 : ℚ)) :=
  ⟨by norm_num,
    (C5_planning_exact_units (29 / 2) 4 (fun _ r => some r) (by norm_num)
      (fun _ _ => rfl)).1,
    (C5_planning_exact_units (29 / 2) 4 (fun _ r => some r) (by norm_num)
      (fun _ _ => rfl)).2.1⟩

/-- Concrete outcome environment for C6: unit 1 (the first tab)
initializes fully, unit 2 times out. -/
def envTimeout (i : ℕ) (r : ℚ) : Option ℚ := if i = 0 then some r else none

/-- Counterexample to C6 as stated: in a 4-unit plan (58 GB at 14.5 GB
per tab) where unit 2 times out, planning does NOT complete with unit 1's
shard retained and a positive shortfall — the whole handler fails
(`{success: false}`, modelled `none`), retaining nothing. -/
theorem C6_counterexample :
    handleCreateMemoryTabs envTimeout 58 (29 / 2) = none ∧
      (⌈(58 : ℚ) / (29 / 2)⌉).toNat = 4 := by
  have hceil : (⌈(58 : ℚ) / (29 / 2)⌉).toNat = 4 := by
    rw [show ⌈(58 : ℚ) / (29 / 2)⌉ = 4 by norm_num]
    rfl
  constructor
  · rw [handleCreateMemoryTabs, hceil]
    rw [show (4 : ℕ) = 3 + 1 by norm_num, tabsLoop, if_pos (by norm_num)]
    have h0 : envTimeout 0 (min (29 / 2 : ℚ) 58) = some (29 / 2) := by
      rw [envTimeout, if_pos rfl, min_eq_left (by norm_num)]
    rw [h0]
    show Option.map (fun rest => (29 / 2 : ℚ) :: rest)
        (tabsLoop envTimeout (29 / 2) 3 1 (58 - 29 / 2)) = none
    rw [show (3 : ℕ) = 2 + 1 by norm_num, tabsLoop, if_pos (by norm_num)]
    have h1 : envTimeout 1 (min (29 / 2 : ℚ) (58 - 29 / 2)) = none := by
      rw [envTimeout]
      simp
    rw [h1]
    rfl
  · exact hceil

/-- Claim C6 amended: an `AllocationTimeout` (or any initialization
failure) on unit 2 of a multi-unit plan aborts planning entirely: the
handler returns `{success: false}` with no tab list and no allocations —
unit 1's completed shard is not reported as retained and no shortfall is
surfaced to the caller (`initializeWithMultipleTabs` then throws). -/
theorem C6_timeout_aborts_plan (env : ℕ → ℚ → Option ℚ) (totalGB g : ℚ)
    (hg : 0 < g) (hlt : g < totalGB)
    (henv0 : ∀ r, env 0 r = some r) (henv1 : ∀ r, env 1 r = none) :
    handleCreateMemoryTabs env totalGB g = none := by
  have hdiv : (1 : ℚ) < totalGB / g := (one_lt_div hg).mpr hlt
  have hceil2 : (2 : ℤ) ≤ ⌈totalGB / g⌉ := by
    have h1 : (1 : ℤ) < ⌈totalGB / g⌉ := by
      have := Int.lt_ceil.mpr (show ((1 : ℤ) : ℚ) < totalGB / g by exact_mod_cast hdiv)
      exact this
    omega
  obtain ⟨m, hm⟩ : ∃ m : ℕ, (⌈totalGB / g⌉).toNat = m + 1 + 1 := by
    refine ⟨(⌈totalGB / g⌉).toNat - 2, ?_⟩
    omega
  rw [handleCreateMemoryTabs, hm, tabsLoop, if_pos (by linarith)]
  have hmin : min g totalGB = g := min_eq_left (le_of_lt hlt)
  rw [hmin, henv0]
  show Option.map (fun rest => g :: rest) (tabsLoop env g (m + 1) 1 (totalGB - g)) = none
  rw [tabsLoop, if_pos (by linarith), henv1]
  rfl

/-- Witness for the amended C6. -/
theorem C6_timeout_aborts_plan_witness :
    (0 : ℚ) < 29 / 2 ∧ (29 / 2 : ℚ) < 58 ∧
      handleCreateMemoryTabs envTimeout 58 (29 / 2) = none :=
  ⟨by norm_num, by norm_num,
    C6_timeout_aborts_plan envTimeout 58 (29 / 2) (by norm_num) (by norm_num)
      (fun r => by rw [envTimeout]; simp) (fun r => by rw [envTimeout]; simp)⟩

/-! Shard allocation (`MemoryTabAllocator.initialize`, src/unnamed/part_003,
and `OffscreenPoRAMManager.initialize`, src/offscreen.js).  Both allocate
256 MB (`0.25` GB) chunks toward a target, pre-checking before every
chunk that the running total plus the chunk would not exceed the 15 GB
per-process ceiling minus a 0.5 GB safety margin. -/

/-- State of an allocator during its chunk loop: the chunk sizes pushed
to `this.memory` (in GB) and the running `totalAllocatedGB`. -/
structure TabAllocState where
  chunks : List ℚ
  total : ℚ
deriving DecidableEq

/-- Embedding of the chunk loop of `MemoryTabAllocator.initialize`
(src/unnamed/part_003): for chunk index `i` the request is
`min 0.25 (targetGB - i * 0.25)`; if `total + chunk > 15 - 0.5` the loop
BREAKS, leaving the state already gathered (the Partial outcome);
otherwise the chunk is allocated (`env i = false` models a thrown
`new ArrayBuffer` failure, which rethrows and aborts `initialize`,
modelled `none`) and appended.  Recursion is on the remaining chunk
count `numChunks - i`. -/
def runAlloc (env : ℕ → Bool) (targetGB : ℚ) : ℕ → ℕ → TabAllocState → Option TabAllocState
  | 0, _, s => some s
  | k + 1, i, s =>
      if s.total + min (1 / 4) (targetGB - i * (1 / 4)) > 15 - 1 / 2 then some s
      else if env i then
        runAlloc env targetGB k (i + 1)
          ⟨s.chunks ++ [min (1 / 4) (targetGB - i * (1 / 4))],
            s.total + min (1 / 4) (targetGB - i * (1 / 4))⟩
      else none

/-- Embedding of `MemoryTabAllocator.initialize`:
`numChunks = Math.ceil(targetGB / 0.25)` loop iterations from an empty
memory list. -/
def memoryTabInitialize (env : ℕ → Bool) (targetGB : ℚ) : Option TabAllocState :=
  runAlloc env targetGB (⌈targetGB / (1 / 4)⌉).toNat 0 ⟨[], 0⟩

/-- Embedding of the chunk loop of `OffscreenPoRAMManager.initialize`
(src/offscreen.js): identical chunking and identical limit pre-check,
but when the check trips it THROWS (`Chrome memory limit reached`,
modelled `none`) instead of breaking. -/
def runAllocOff (env : ℕ → Bool) (allocGB : ℚ) : ℕ → ℕ → TabAllocState → Option TabAllocState
  | 0, _, s => some s
  | k + 1, i, s =>
      if s.total + min (1 / 4) (allocGB - i * (1 / 4)) > 15 - 1 / 2 then none
      else if env i then
        runAllocOff env allocGB k (i + 1)
          ⟨s.chunks ++ [min (1 / 4) (allocGB - i * (1 / 4))],
            s.total + min (1 / 4) (allocGB - i * (1 / 4))⟩
      else none

/-- Embedding of `OffscreenPoRAMManager.initialize`: memory accumulates
across calls, so the loop starts from the `existing` 256 MB chunks with
`totalAllocatedGB = existing * 0.25`. -/
def offscreenInitialize (env : ℕ → Bool) (allocGB : ℚ) (existing : ℕ) :
    Option TabAllocState :=
  runAllocOff env allocGB (⌈allocGB / (1 / 4)⌉).toNat 0
    ⟨List.replicate existing (1 / 4), (existing : ℚ) * (1 / 4)⟩

/-- Counterexample to C7 as stated: the offscreen allocator (one of the
two shard allocators) does NOT return a Partial shard when the pre-check
trips — it throws, failing the whole `initialize` call.  Concretely, with
58 chunks (14.5 GB) already accumulated, a further 1 GB initialize fails
outright instead of returning the gathered state. -/
theorem C7_counterexample :
    offscreenInitialize (fun _ => true) 1 58 = none := by
  rw [offscreenInitialize, show ⌈(1 : ℚ) / (1 / 4)⌉ = 4 by norm_num]
  rw [show ((4 : ℤ)).toNat = 3 + 1 from rfl, runAllocOff]
  rw [if_pos (by push_cast; norm_num)]

theorem runAlloc_total_le (env : ℕ → Bool) (targetGB : ℚ) :
    ∀ k i s s', s.total ≤ 15 - 1 / 2 → runAlloc env targetGB k i s = some s' →
      s'.total ≤ 15 - 1 / 2 := by
  intro k
  induction k with
  | zero =>
      intro i s s' hs h
      rw [runAlloc] at h
      cases h
      exact hs
  | succ n ih =>
      intro i s s' hs h
      rw [runAlloc] at h
      split_ifs at h with hover henv
      · cases h
        exact hs
      · exact ih (i + 1) _ s' (by simp; linarith) h

theorem runAllocOff_total_le (env : ℕ → Bool) (allocGB : ℚ) :
    ∀ k i s s', s.total ≤ 15 - 1 / 2 → runAllocOff env allocGB k i s = some s' →
      s'.total ≤ 15 - 1 / 2 := by
  intro k
  induction k with
  | zero =>
      intro i s s' hs h
      rw [runAllocOff] at h
      cases h
      exact hs
  | succ n ih =>
      intro i s s' hs h
      rw [runAllocOff] at h
      split_ifs at h with hover henv
      · exact ih (i + 1) _ s' (by simp; linarith) h

/-- Claim C7 amended: in both allocators the pre-check keeps
`allocatedBytes <= capacityBytes` in every reachable state (every state
produced by any number of loop steps from any state within the ceiling
stays within `15 - 0.5` GB, hence within the 15 GB capacity); the
memory-tab allocator, when the check trips, stops early and returns the
already-gathered Partial state — but the offscreen allocator instead
throws, failing its whole `initialize` call, rather than returning a
Partial shard. -/
theorem C7_allocation_bounded (env : ℕ → Bool) (targetGB : ℚ) :
    (∀ k i s s', s.total ≤ 15 - 1 / 2 → runAlloc env targetGB k i s = some s' →
        s'.total ≤ 15 - 1 / 2) ∧
      (∀ s', memoryTabInitialize env targetGB = some s' → s'.total ≤ 15) ∧
      (∀ (k i : ℕ) (s : TabAllocState),
        s.total + min (1 / 4) (targetGB - (i : ℚ) * (1 / 4)) > 15 - 1 / 2 →
        runAlloc env targetGB (k + 1) i s = some s) ∧
      (∀ k i s s', s.total ≤ 15 - 1 / 2 → runAllocOff env targetGB k i s = some s' →
        s'.total ≤ 15 - 1 / 2) ∧
      (∀ (k i : ℕ) (s : TabAllocState),
        s.total + min (1 / 4) (targetGB - (i : ℚ) * (1 / 4)) > 15 - 1 / 2 →
        runAllocOff env targetGB (k + 1) i s = none) := by
  refine ⟨runAlloc_total_le env targetGB, ?_, ?_, runAllocOff_total_le env targetGB, ?_⟩
  · intro s' h
    have := runAlloc_total_le env targetGB _ 0 ⟨[], 0⟩ s' (by norm_num) h
    linarith
  · intro k i s hover
    rw [runAlloc, if_pos hover]
  · intro k i s hover
    rw [runAllocOff, if_pos hover]

/-- Witness for the amended C7: a 20 GB target in a single tab; the first
chunk from a state already holding 14.5 GB trips the check and is
returned unchanged (Partial), while the offscreen variant fails there;
and a two-step run from the empty state stays within the ceiling. -/
theorem C7_allocation_bounded_witness :
    ((⟨[], 29 / 2⟩ : TabAllocState).total + min (1 / 4) ((20 : ℚ) - 0 * (1 / 4)) >
        15 - 1 / 2) ∧
      runAlloc (fun _ => true) 20 (0 + 1) 0 ⟨[], 29 / 2⟩ = some ⟨[], 29 / 2⟩ ∧
      runAllocOff (fun _ => true) 20 (0 + 1) 0 ⟨[], 29 / 2⟩ = none ∧
      ((⟨[], 0⟩ : TabAllocState).total ≤ 15 - 1 / 2 →
        ∀ s', runAlloc (fun _ => true) 20 2 0 ⟨[], 0⟩ = some s' → s'.total ≤ 15 - 1 / 2) :=
  ⟨by norm_num,
    (C7_allocation_bounded (fun _ => true) 20).2.2.1 0 0 ⟨[], 29 / 2⟩ (by norm_num),
    (C7_allocation_bounded (fun _ => true) 20).2.2.2.2 0 0 ⟨[], 29 / 2⟩ (by norm_num),
    fun hs s' h => (C7_allocation_bounded (fun _ => true) 20).1 2 0 ⟨[], 0⟩ s' hs h⟩

end PORAM
